import Mathlib

/-!
Shallow embedding of the `grib1_reader` crate (src/lib.rs, src/error.rs).

Bytes are modelled as `Nat` (each `< 256` in any real file), byte buffers as
`List Nat`, the random-access file as a `List Nat` together with an explicit
stream position.  IBM floats and decoded samples are modelled as exact
rationals (`ℚ`); `f32` arithmetic is idealised as exact arithmetic.  A Rust
`panic` (out-of-bounds slice index) is a distinguished outcome, separate from
the library's `Grib1Error` results.  The walkers of `read` / `read_binary`
are given explicit fuel; `none` models a scan that never terminates.
-/

namespace Grib1

/-- The error enum of src/error.rs (`Grib1Error`).  `ioError` stands for the
`IoError` variant produced by a failing underlying read/seek. -/
inductive Grib1Error : Type where
  | ioError : Grib1Error
  | wrongHeader : Grib1Error
  | wrongVersion : Nat → Grib1Error
  | dataDecodeFailed : Grib1Error
deriving DecidableEq

/-- Outcome of running a piece of the Rust reader: a value, a returned
`Grib1Error`, or an aborted process (a Rust panic, e.g. slice index out of
bounds).  A panic is not a library error value. -/
inductive ROut (α : Type) : Type where
  | ok : α → ROut α
  | fail : Grib1Error → ROut α
  | panicked : ROut α
deriving DecidableEq

/-- True exactly when the outcome is a normal value. -/
def ROut.isOk {α : Type} : ROut α → Bool
  | .ok _ => true
  | .fail _ => false
  | .panicked => false

/-- Extract the value of an `ok` outcome, with a default otherwise. -/
def ROut.getD {α : Type} : ROut α → α → α
  | .ok a, _ => a
  | .fail _, d => d
  | .panicked, d => d

/-- src/lib.rs `read_u16_be`: big-endian unsigned 16-bit decoder. -/
def read_u16_be (array : List Nat) : Nat :=
  array.getD 1 0 + (array.getD 0 0 <<< 8)

/-- src/lib.rs `read_u24_be`: big-endian unsigned 24-bit decoder. -/
def read_u24_be (array : List Nat) : Nat :=
  array.getD 2 0 + (array.getD 1 0 <<< 8) + (array.getD 0 0 <<< 16)

/-- src/lib.rs `read_i16_be`: sign-magnitude signed 16-bit decoder.  The top
bit of byte 0 is a sign flag; the remaining 15 bits are the magnitude. -/
def read_i16_be (array : List Nat) : Int :=
  let val : Int := (array.getD 1 0 : Int) + ((((array.getD 0 0 &&& 127) <<< 8 : Nat)) : Int)
  if array.getD 0 0 &&& 128 > 0 then -val else val

/-- src/lib.rs `read_i24_be`: sign-magnitude signed 24-bit decoder. -/
def read_i24_be (array : List Nat) : Int :=
  let val : Int := (array.getD 2 0 : Int) + ((array.getD 1 0 <<< 8 : Nat) : Int) +
    ((((array.getD 0 0 &&& 127) <<< 16 : Nat)) : Int)
  if array.getD 0 0 &&& 128 > 0 then -val else val

/-- src/lib.rs `read_f32_ibm`: IBM single-precision float decoder, with the
`f32` arithmetic idealised as exact rational arithmetic.  Top bit of byte 0 is
the sign, its low 7 bits the base-16 exponent biased by 64, bytes 1..3 the
24-bit mantissa: `sign * 2^-24 * mantissa * 16^(a - 64)`. -/
def read_f32_ibm (data : List Nat) : ℚ :=
  let sign : ℚ := if data.getD 0 0 &&& 128 > 0 then -1 else 1
  let a : Int := (data.getD 0 0 &&& 127 : Nat)
  let b : ℚ := ((data.getD 1 0 <<< 16) + (data.getD 2 0 <<< 8) + data.getD 3 0 : Nat)
  sign * (2 : ℚ) ^ (-24 : Int) * b * (16 : ℚ) ^ (a - 64)

/-- Modelled from the spec: bit `i` of the continuous big-endian bitstream over
`buf`, most significant bit of each byte first.  The Bit Unpacker itself is the
external `bitstream-io` crate's `BitReader`, whose source is not part of this
repository; spec section 4.2 fixes its contract. -/
def bitAt (buf : List Nat) (i : Nat) : Nat :=
  (buf.getD (i / 8) 0 >>> (7 - i % 8)) &&& 1

/-- Modelled from the spec: the unsigned integer formed by the `w` bits of the
bitstream over `buf` starting at bit position `start`, most significant first. -/
def bitsVal (buf : List Nat) (start w : Nat) : Nat :=
  (List.range w).foldl (fun acc j => acc * 2 + bitAt buf (start + j)) 0

/-- Modelled from the spec: `n` successive reads of `w` bits each, starting at
bit position `start`.  A read succeeds exactly when the stream still holds `w`
bits; otherwise the unpacker signals exhaustion (`none`), which `read_bds`
turns into `Grib1Error::DataDecodeFailed`. -/
def unpackFrom (buf : List Nat) (w : Nat) : Nat → Nat → Option (List Nat)
  | _, 0 => some []
  | start, n + 1 =>
    if start + w ≤ 8 * buf.length then
      (unpackFrom buf w (start + w) n).map (fun rest => bitsVal buf start w :: rest)
    else none

/-- src/lib.rs `RotatedLatLon` (coordinates as exact rationals). -/
structure RotatedLatLon : Type where
  number_of_lat_values : Nat
  number_of_lon_values : Nat
  latitude_of_first_grid_point : ℚ
  longitude_of_first_grid_point : ℚ
  latitude_of_last_grid_point : ℚ
  longitude_of_last_grid_point : ℚ
  latitude_of_southern_pole : ℚ
  longitude_of_southern_pole : ℚ
deriving DecidableEq

/-- src/lib.rs `DataRepresentation`. -/
inductive DataRepresentation : Type where
  | Unhandled : DataRepresentation
  | RotatedLatLon : RotatedLatLon → DataRepresentation
deriving DecidableEq

/-- src/lib.rs `GDS` (grid description section). -/
structure GDS : Type where
  number_of_vertical_coordinate_values : Nat
  pvl_location : Nat
  data_representation_type : Nat
  data : DataRepresentation
deriving DecidableEq

/-- src/lib.rs `PDS` (product definition section). -/
structure PDS : Type where
  parameter_table_version_number : Nat
  identification_of_center : Nat
  generating_process_id_number : Nat
  grid_identification : Nat
  flag_specifying_the_presence_or_absence_of_a_gds_or_a_bms : Nat
  indicator_of_parameter_and_units : Nat
  indicator_of_type_of_level_or_layer : Nat
  level_or_layer_value : Nat
  year : Nat
  month : Nat
  day : Nat
  hour : Nat
  minute : Nat
  forecast_time_unit : Nat
  p1_period_of_time : Nat
  p2_period_of_time : Nat
  time_range_indicator : Nat
  number_missing_from_averages_or_accumulations : Nat
  century_of_initial_reference_time : Nat
  identification_of_sub_center : Nat
  decimal_scale_factor : Int
deriving DecidableEq

/-- src/lib.rs `PDS::has_gds`: bit `0x80` of the flag byte. -/
def PDS.has_gds (p : PDS) : Bool :=
  decide (p.flag_specifying_the_presence_or_absence_of_a_gds_or_a_bms &&& 128 > 0)

/-- src/lib.rs `PDS::has_bmp`: bit `0x40` of the flag byte. -/
def PDS.has_bmp (p : PDS) : Bool :=
  decide (p.flag_specifying_the_presence_or_absence_of_a_gds_or_a_bms &&& 64 > 0)

/-- src/lib.rs `Bitmap` (bit-map section, header fields only). -/
structure Bitmap : Type where
  number_of_unused_bits_at_end_of_section3 : Nat
  table_reference : Nat
deriving DecidableEq

/-- src/lib.rs `BDS` (binary data section, samples as exact rationals). -/
structure BDS : Type where
  data_flag : Nat
  binary_scale_factor : Int
  reference_value : ℚ
  bits_per_value : Nat
  data : List ℚ
deriving DecidableEq

/-- src/lib.rs `SearchParams` (`param`, `level` are `u32` in the source). -/
structure SearchParams : Type where
  param : Nat
  level : Nat
deriving DecidableEq

/-- src/lib.rs `Grib`. -/
structure Grib : Type where
  length : Nat
  pds : PDS
  gds : Option GDS
  bds : Option BDS
deriving DecidableEq

/-- src/lib.rs `GribResult`: either a full decoded message or only its
reported length (message skipped by the search filter). -/
inductive GribResult : Type where
  | Length : Nat → GribResult
  | Grib : Grib → GribResult
deriving DecidableEq

/-- Body of src/lib.rs `read_pds` after its `read_exact`, over the section
buffer.  The source indexes the buffer without bounds checks up to offset 27
(`read_i16_be(&buffer[26..])`); a buffer shorter than 28 bytes is a Rust
index-out-of-bounds panic, modelled as `none`. -/
def read_pds (buffer : List Nat) : Option PDS :=
  if buffer.length < 28 then none
  else some
    { parameter_table_version_number := buffer.getD 3 0
      identification_of_center := buffer.getD 4 0
      generating_process_id_number := buffer.getD 5 0
      grid_identification := buffer.getD 6 0
      flag_specifying_the_presence_or_absence_of_a_gds_or_a_bms := buffer.getD 7 0
      indicator_of_parameter_and_units := buffer.getD 8 0
      indicator_of_type_of_level_or_layer := buffer.getD 9 0
      level_or_layer_value := read_u16_be (buffer.drop 10)
      year := buffer.getD 12 0
      month := buffer.getD 13 0
      day := buffer.getD 14 0
      hour := buffer.getD 15 0
      minute := buffer.getD 16 0
      forecast_time_unit := buffer.getD 17 0
      p1_period_of_time := buffer.getD 18 0
      p2_period_of_time := buffer.getD 19 0
      time_range_indicator := buffer.getD 20 0
      number_missing_from_averages_or_accumulations := buffer.getD 23 0
      century_of_initial_reference_time := buffer.getD 24 0
      identification_of_sub_center := buffer.getD 25 0
      decimal_scale_factor := read_i16_be (buffer.drop 26) }

/-- Body of src/lib.rs `read_gds` after its `read_exact`, over the section
buffer.  The source first reads `buffer[5]` (panic below 6 bytes, modelled as
`none`); only representation type 10 is decoded further, reading fields up to
offset 37 (`read_i24_be(&buffer[35..])`, panic below 38 bytes). -/
def read_gds (buffer : List Nat) : Option GDS :=
  if buffer.length < 6 then none
  else
    let data_representation_type := buffer.getD 5 0
    if data_representation_type = 10 then
      if buffer.length < 38 then none
      else some
        { number_of_vertical_coordinate_values := buffer.getD 3 0
          pvl_location := buffer.getD 4 0
          data_representation_type := data_representation_type
          data := .RotatedLatLon
            { number_of_lat_values := read_u16_be (buffer.drop 6)
              number_of_lon_values := read_u16_be (buffer.drop 8)
              latitude_of_first_grid_point := (read_i24_be (buffer.drop 10) : ℚ) * (1 / 1000)
              longitude_of_first_grid_point := (read_i24_be (buffer.drop 13) : ℚ) * (1 / 1000)
              latitude_of_last_grid_point := (read_i24_be (buffer.drop 17) : ℚ) * (1 / 1000)
              longitude_of_last_grid_point := (read_i24_be (buffer.drop 20) : ℚ) * (1 / 1000)
              latitude_of_southern_pole := (read_i24_be (buffer.drop 32) : ℚ) * (1 / 1000)
              longitude_of_southern_pole := (read_i24_be (buffer.drop 35) : ℚ) * (1 / 1000) } }
    else some
      { number_of_vertical_coordinate_values := buffer.getD 3 0
        pvl_location := buffer.getD 4 0
        data_representation_type := data_representation_type
        data := .Unhandled }

/-- Body of src/lib.rs `read_bitmap` after its `read_exact` (fields up to
offset 5; shorter buffers panic, modelled as `none`). -/
def read_bitmap (buffer : List Nat) : Option Bitmap :=
  if buffer.length < 6 then none
  else some
    { number_of_unused_bits_at_end_of_section3 := buffer.getD 3 0
      table_reference := read_u16_be (buffer.drop 4) }

/-- Body of src/lib.rs `read_bds` after its `read_exact`, over the section
buffer.  Header fields sit at offsets 3..10 (panic below 11 bytes, modelled as
`.panicked`); the packed payload starts at byte 11 and is unpacked
`number_of_data_points` times at `bit_count` bits per value; exhaustion of the
bitstream is `Grib1Error::DataDecodeFailed`. -/
def read_bds (buffer : List Nat) (number_of_data_points : Nat) : ROut BDS :=
  if buffer.length < 11 then .panicked
  else
    let binary_scale := read_i16_be (buffer.drop 4)
    let ref_value := read_f32_ibm (buffer.drop 6)
    let bit_count := buffer.getD 10 0
    let factor : ℚ := (2 : ℚ) ^ binary_scale
    match unpackFrom (buffer.drop 11) bit_count 0 number_of_data_points with
    | none => .fail .dataDecodeFailed
    | some raw => .ok
      { data_flag := buffer.getD 3 0
        binary_scale_factor := binary_scale
        reference_value := ref_value
        bits_per_value := bit_count
        data := raw.map (fun (x : Nat) => ref_value + (x : ℚ) * factor) }

/-- `read_exact` of the underlying stream: `n` bytes at `pos`, failing (Rust
`io::Error`, hence `Grib1Error::IoError`) when the file is too short. -/
def readExact (file : List Nat) (pos n : Nat) : Option (List Nat) :=
  if pos + n ≤ file.length then some ((file.drop pos).take n) else none

/-- src/lib.rs `get_length`: peek the section's 3-byte big-endian length
prefix at `pos` and seek back (the stream position is unchanged). -/
def get_length (file : List Nat) (pos : Nat) : Option Nat :=
  (readExact file pos 3).map read_u24_be

/-- src/lib.rs `read_pds` at stream level: peek the section length, read that
many bytes, decode; returns the decoded section and the new stream position. -/
def read_pds_at (file : List Nat) (pos : Nat) : ROut (PDS × Nat) :=
  match get_length file pos with
  | none => .fail .ioError
  | some len =>
    match readExact file pos len with
    | none => .fail .ioError
    | some buffer =>
      match read_pds buffer with
      | none => .panicked
      | some pds => .ok (pds, pos + len)

/-- src/lib.rs `read_gds` at stream level. -/
def read_gds_at (file : List Nat) (pos : Nat) : ROut (GDS × Nat) :=
  match get_length file pos with
  | none => .fail .ioError
  | some len =>
    match readExact file pos len with
    | none => .fail .ioError
    | some buffer =>
      match read_gds buffer with
      | none => .panicked
      | some gds => .ok (gds, pos + len)

/-- src/lib.rs `read_bitmap` at stream level. -/
def read_bitmap_at (file : List Nat) (pos : Nat) : ROut (Bitmap × Nat) :=
  match get_length file pos with
  | none => .fail .ioError
  | some len =>
    match readExact file pos len with
    | none => .fail .ioError
    | some buffer =>
      match read_bitmap buffer with
      | none => .panicked
      | some bmp => .ok (bmp, pos + len)

/-- src/lib.rs `read_bds` at stream level. -/
def read_bds_at (file : List Nat) (pos : Nat) (number_of_data_points : Nat) : ROut (BDS × Nat) :=
  match get_length file pos with
  | none => .fail .ioError
  | some len =>
    match readExact file pos len with
    | none => .fail .ioError
    | some buffer =>
      match read_bds buffer number_of_data_points with
      | .panicked => .panicked
      | .fail e => .fail e
      | .ok bds => .ok (bds, pos + len)

/-- The search filter of src/lib.rs `read_grib` (loop body condition): the
source compares the PDS parameter byte with `param as u8` and the 16-bit level
with `level as u16`, i.e. with the criterion truncated mod 2^8 / 2^16. -/
def matchesCriterion (pds : PDS) (s : SearchParams) : Bool :=
  pds.indicator_of_parameter_and_units == s.param % 256 &&
    pds.level_or_layer_value == s.level % 65536

/-- The first conditional section read of src/lib.rs `read_grib`: the GDS is
read exactly when `has_gds`; the rotated-lat/lon point counts are captured
when that variant was produced and stay `0` otherwise.  Returns the optional
GDS, the two point counts, and the stream position after the step. -/
def readGdsStep (file : List Nat) (pds : PDS) (pos : Nat) : ROut (Option GDS × Nat × Nat × Nat) :=
  if pds.has_gds then
    match read_gds_at file pos with
    | .fail e => .fail e
    | .panicked => .panicked
    | .ok (gds, pos1) =>
      match gds.data with
      | .RotatedLatLon v => .ok (some gds, v.number_of_lat_values, v.number_of_lon_values, pos1)
      | .Unhandled => .ok (some gds, 0, 0, pos1)
  else .ok (none, 0, 0, pos)

/-- The second conditional section read of src/lib.rs `read_grib`: the bitmap
is read (and its decoded value discarded) exactly when `has_bmp`; only the
stream position advances. -/
def readBmpStep (file : List Nat) (pds : PDS) :
    Option GDS × Nat × Nat × Nat → ROut (Option GDS × Nat × Nat × Nat)
  | (gdsOpt, nlat, nlon, pos1) =>
    if pds.has_bmp then
      match read_bitmap_at file pos1 with
      | .fail e => .fail e
      | .panicked => .panicked
      | .ok (_, pos2) => .ok (gdsOpt, nlat, nlon, pos2)
    else .ok (gdsOpt, nlat, nlon, pos1)

/-- The two conditional section reads of src/lib.rs `read_grib` (GDS if
`has_gds`, Bitmap if `has_bmp`, the bitmap being decoded and discarded). -/
def readSections (file : List Nat) (pds : PDS) (pos : Nat) : ROut (Option GDS × Nat × Nat × Nat) :=
  match readGdsStep file pds pos with
  | .fail e => .fail e
  | .panicked => .panicked
  | .ok r => readBmpStep file pds r

/-- src/lib.rs `read_grib`: scan one message at stream position `pos`.  Reads
the 8-byte header with `read` (missing trailing bytes stay `0`), checks the
`GRIB` magic and the version byte, decodes the PDS, conditionally the GDS and
bitmap, then runs the search filter; on a match the BDS is decoded only when
`want_bds` (the source's `read_bds` flag).  Returns the result together with
the final stream position. -/
def read_grib (file : List Nat) (pos : Nat) (search_list : List SearchParams) (want_bds : Bool) :
    ROut (GribResult × Nat) :=
  let buffer : List Nat :=
    [file.getD pos 0, file.getD (pos + 1) 0, file.getD (pos + 2) 0, file.getD (pos + 3) 0,
      file.getD (pos + 4) 0, file.getD (pos + 5) 0, file.getD (pos + 6) 0, file.getD (pos + 7) 0]
  if buffer.take 4 ≠ [71, 82, 73, 66] then .fail .wrongHeader
  else
    let length_of_grib_section := read_u24_be (buffer.drop 4)
    let version := buffer.getD 7 0
    if version ≠ 1 then .fail (.wrongVersion version)
    else
      match read_pds_at file (pos + 8) with
      | .fail e => .fail e
      | .panicked => .panicked
      | .ok (pds, pos1) =>
        match readSections file pds pos1 with
        | .fail e => .fail e
        | .panicked => .panicked
        | .ok (gdsOpt, nlat, nlon, pos2) =>
          if search_list.any (matchesCriterion pds) then
            if want_bds then
              match read_bds_at file pos2 (nlat * nlon) with
              | .fail e => .fail e
              | .panicked => .panicked
              | .ok (bds, pos3) =>
                let g : Grib :=
                  { length := length_of_grib_section, pds := pds, gds := gdsOpt, bds := some bds }
                .ok (.Grib g, pos3)
            else
              let g : Grib :=
                { length := length_of_grib_section, pds := pds, gds := gdsOpt, bds := none }
              .ok (.Grib g, pos2)
          else .ok (.Length length_of_grib_section, pos2)

/-- Loop body of src/lib.rs `Grib1Reader::read` (decoded mode), with explicit
fuel; `none` models a scan that never terminates (a zero-length message).
Matching messages are appended to `acc`; every message advances the offset by
its reported length.  Returns the collected messages and the final offset. -/
def readLoop (file : List Nat) (search : List SearchParams) :
    Nat → Nat → List Grib → Option (ROut (List Grib × Nat))
  | 0, _, _ => none
  | fuel + 1, offset, acc =>
    if offset < file.length then
      match read_grib file offset search true with
      | .fail e => some (.fail e)
      | .panicked => some .panicked
      | .ok (.Grib g, _) => readLoop file search fuel (offset + g.length) (acc ++ [g])
      | .ok (.Length l, _) => readLoop file search fuel (offset + l) acc
    else some (.ok (acc, offset))

/-- src/lib.rs `Grib1Reader::read`: walk the whole file from offset 0.  Fuel
`file.length + 1` is enough for every terminating scan, since a terminating
scan advances the offset by at least one byte per step. -/
def read (file : List Nat) (search : List SearchParams) : Option (ROut (List Grib × Nat)) :=
  readLoop file search (file.length + 1) 0 []

/-- Loop body of src/lib.rs `Grib1Reader::read_binary` (raw-bytes mode): on a
match, re-seek to the message start and `read_exact` its reported length,
appending the bytes verbatim. -/
def readBinaryLoop (file : List Nat) (search : List SearchParams) :
    Nat → Nat → List Nat → Option (ROut (List Nat × Nat))
  | 0, _, _ => none
  | fuel + 1, offset, acc =>
    if offset < file.length then
      match read_grib file offset search false with
      | .fail e => some (.fail e)
      | .panicked => some .panicked
      | .ok (.Grib g, _) =>
        match readExact file offset g.length with
        | none => some (.fail .ioError)
        | some bytes => readBinaryLoop file search fuel (offset + g.length) (acc ++ bytes)
      | .ok (.Length l, _) => readBinaryLoop file search fuel (offset + l) acc
    else some (.ok (acc, offset))

/-- src/lib.rs `Grib1Reader::read_binary`: raw-bytes walk of the whole file. -/
def read_binary (file : List Nat) (search : List SearchParams) : Option (ROut (List Nat × Nat)) :=
  readBinaryLoop file search (file.length + 1) 0 []

/-- The decoded message of a scan outcome, when the outcome selected one. -/
def gribOf : ROut (GribResult × Nat) → Option Grib
  | .ok (.Grib g, _) => some g
  | .ok (.Length _, _) => none
  | .fail _ => none
  | .panicked => none

/-- True exactly when a scan outcome selected the message. -/
def isGribOutcome (r : ROut (GribResult × Nat)) : Bool :=
  (gribOf r).isSome

/-- Number of grid points announced by a decoded grid description: the product
of the rotated-lat/lon point counts, and `0` for an absent or unhandled one. -/
def gridPoints : Option GDS → Nat
  | some g =>
    match g.data with
    | .RotatedLatLon v => v.number_of_lat_values * v.number_of_lon_values
    | .Unhandled => 0
  | none => 0

/-- A default binary-data section, used as the fallback of projections. -/
def bdsDefault : BDS :=
  { data_flag := 0, binary_scale_factor := 0, reference_value := 0, bits_per_value := 0, data := [] }

/-- The raw byte range of `file` described by a (start, length) pair. -/
def sliceAt (file : List Nat) (r : Nat × Nat) : List Nat :=
  (file.drop r.1).take r.2

/-- Spec-side companion of `readBinaryLoop`: the (start offset, reported
length) pairs of the matching messages, in file order, with the same error
behaviour as the raw-bytes walk. -/
def matchedRangesLoop (file : List Nat) (search : List SearchParams) :
    Nat → Nat → List (Nat × Nat) → Option (ROut (List (Nat × Nat) × Nat))
  | 0, _, _ => none
  | fuel + 1, offset, acc =>
    if offset < file.length then
      match read_grib file offset search false with
      | .fail e => some (.fail e)
      | .panicked => some .panicked
      | .ok (.Grib g, _) =>
        if offset + g.length ≤ file.length then
          matchedRangesLoop file search fuel (offset + g.length) (acc ++ [(offset, g.length)])
        else some (.fail .ioError)
      | .ok (.Length l, _) => matchedRangesLoop file search fuel (offset + l) acc
    else some (.ok (acc, offset))

/-- Spec-side companion of `read_binary`: the matched raw byte ranges. -/
def matchedRanges (file : List Nat) (search : List SearchParams) :
    Option (ROut (List (Nat × Nat) × Nat)) :=
  matchedRangesLoop file search (file.length + 1) 0 []

/-- A 36-byte single-message file: `GRIB` magic, reported length 100 (an
overshooting value), edition 1, then a 28-byte PDS with flag byte 0,
parameter 33 and level 700.  The actual file ends after the PDS. -/
def file36 : List Nat :=
  [71, 82, 73, 66, 0, 0, 100, 1,
    0, 0, 28, 0, 0, 0, 0, 0, 33, 0, 2, 188, 0, 0, 0, 0, 0, 0, 0, 0, 0, 0, 0, 0, 0, 0, 0, 0]

/-- Like `file36` but with the correct reported length 36. -/
def file36m : List Nat :=
  [71, 82, 73, 66, 0, 0, 36, 1,
    0, 0, 28, 0, 0, 0, 0, 0, 33, 0, 2, 188, 0, 0, 0, 0, 0, 0, 0, 0, 0, 0, 0, 0, 0, 0, 0, 0]

/-- A 47-byte single-message file: header (reported length 47), the PDS of
`file36m`, and an 11-byte BDS with zero header fields and an empty payload. -/
def file47 : List Nat :=
  [71, 82, 73, 66, 0, 0, 47, 1,
    0, 0, 28, 0, 0, 0, 0, 0, 33, 0, 2, 188, 0, 0, 0, 0, 0, 0, 0, 0, 0, 0, 0, 0, 0, 0, 0, 0,
    0, 0, 11, 0, 0, 0, 0, 0, 0, 0, 0]

/-- The PDS decoded from the all-zero-flag section of `file36` / `file47`. -/
def pds0 : PDS :=
  { parameter_table_version_number := 0, identification_of_center := 0
    generating_process_id_number := 0, grid_identification := 0
    flag_specifying_the_presence_or_absence_of_a_gds_or_a_bms := 0
    indicator_of_parameter_and_units := 33, indicator_of_type_of_level_or_layer := 0
    level_or_layer_value := 700, year := 0, month := 0, day := 0, hour := 0, minute := 0
    forecast_time_unit := 0, p1_period_of_time := 0, p2_period_of_time := 0
    time_range_indicator := 0, number_missing_from_averages_or_accumulations := 0
    century_of_initial_reference_time := 0, identification_of_sub_center := 0
    decimal_scale_factor := 0 }

theorem and_two_pow_pos (n i : Nat) : 0 < n &&& 2 ^ i ↔ n.testBit i := by
  rw [Nat.and_two_pow]
  cases h : n.testBit i <;> simp [h, Nat.pos_pow_of_pos]

theorem and_127_eq_mod (n : Nat) : n &&& 127 = n % 128 := by
  have h : (127 : Nat) = 2 ^ 7 - 1 := rfl
  rw [h, Nat.and_pow_two_sub_one_eq_mod]

theorem and_128_pos (n : Nat) : 0 < n &&& 128 ↔ n.testBit 7 := by
  have h : (128 : Nat) = 2 ^ 7 := rfl
  rw [h, and_two_pow_pos]

theorem and_64_pos (n : Nat) : 0 < n &&& 64 ↔ n.testBit 6 := by
  have h : (64 : Nat) = 2 ^ 6 := rfl
  rw [h, and_two_pow_pos]

/-- C7: for every 4-byte input, the IBM single-precision float decoder returns
sign x mantissa x 2^-24 x 16^(exponent - 64), where the sign is negative
exactly when the top bit of byte 0 is set, the exponent is the remaining 7
bits of byte 0, and the mantissa is the 24-bit big-endian unsigned integer
formed by bytes 1-3 (a base-16 exponent, not IEEE-754).  The `f32` arithmetic
is idealised as exact rational arithmetic. -/
theorem C7_ibm_float (d0 d1 d2 d3 : Nat) :
    read_f32_ibm [d0, d1, d2, d3] =
      (if d0.testBit 7 then (-1 : ℚ) else 1) *
        ((d1 * 65536 + d2 * 256 + d3 : Nat) : ℚ) * (2 : ℚ) ^ (-24 : Int) *
        (16 : ℚ) ^ (((d0 % 128 : Nat) : Int) - 64) := by
  simp only [read_f32_ibm, List.getD_cons_zero, List.getD_cons_succ, Nat.shiftLeft_eq,
    and_127_eq_mod]
  by_cases h : d0.testBit 7
  · rw [if_pos ((and_128_pos d0).mpr h), if_pos h]
    push_cast
    ring
  · rw [if_neg (fun hp => h ((and_128_pos d0).mp hp)), if_neg h]
    push_cast
    ring

/-- C8: the signed 16-bit and 24-bit decoders use sign-magnitude decoding:
the magnitude is the big-endian value of the bytes with the first byte's top
bit cleared, and the result is negated exactly when that top bit is set.  The
last conjunct shows a value where this differs from a two's-complement
reading (0x8001 decodes to -1, not -32767). -/
theorem C8_sign_magnitude (a0 a1 a2 : Nat) :
    (read_i16_be [a0, a1] =
      (if a0.testBit 7 then (-1 : Int) else 1) * (((a0 % 128) * 256 + a1 : Nat) : Int)) ∧
    (read_i24_be [a0, a1, a2] =
      (if a0.testBit 7 then (-1 : Int) else 1) *
        (((a0 % 128) * 65536 + a1 * 256 + a2 : Nat) : Int)) ∧
    read_i16_be [128, 1] ≠ (32769 : Int) - 65536 := by
  refine ⟨?_, ?_, by decide⟩
  · simp only [read_i16_be, List.getD_cons_zero, List.getD_cons_succ, Nat.shiftLeft_eq,
      and_127_eq_mod]
    by_cases h : a0.testBit 7
    · rw [if_pos ((and_128_pos a0).mpr h), if_pos h]
      push_cast
      ring
    · rw [if_neg (fun hp => h ((and_128_pos a0).mp hp)), if_neg h]
      push_cast
      ring
  · simp only [read_i24_be, List.getD_cons_zero, List.getD_cons_succ, Nat.shiftLeft_eq,
      and_127_eq_mod]
    by_cases h : a0.testBit 7
    · rw [if_pos ((and_128_pos a0).mpr h), if_pos h]
      push_cast
      ring
    · rw [if_neg (fun hp => h ((and_128_pos a0).mp hp)), if_neg h]
      push_cast
      ring

/-- C9: a grid description whose data-representation-type byte is not 10
decodes without error to the explicit `Unhandled` variant while still
reporting the fixed header fields (vertical-coordinate count at offset 3, PVL
location byte at offset 4, representation-type code at offset 5). -/
theorem C9_gds_unhandled (buffer : List Nat) (h6 : 6 ≤ buffer.length)
    (hd : buffer.getD 5 0 ≠ 10) :
    read_gds buffer = some
      { number_of_vertical_coordinate_values := buffer.getD 3 0
        pvl_location := buffer.getD 4 0
        data_representation_type := buffer.getD 5 0
        data := .Unhandled } := by
  simp only [read_gds]
  rw [if_neg (by omega), if_neg hd]

/-- Witness for C9 at a concrete 6-byte section with representation type 9. -/
theorem C9_witness :
    read_gds [0, 0, 6, 7, 8, 9] = some
      { number_of_vertical_coordinate_values := 7, pvl_location := 8
        data_representation_type := 9, data := .Unhandled } :=
  C9_gds_unhandled [0, 0, 6, 7, 8, 9] (by decide) (by decide)

/-- C10: the section decoders size their buffer from the untrusted 3-byte
length prefix and then index fixed offsets without bounds checks; a section
whose length prefix (here 4) is smaller than the largest accessed offset makes
the decoder abort with an out-of-bounds panic — a process abort distinct from
every `Grib1Error` return, for the PDS (needs 28 bytes), the BDS (needs 11),
the GDS (needs 6), and hence for a whole `read_grib` scan. -/
theorem C10_short_section_panics :
    read_pds_at [0, 0, 4, 9] 0 = .panicked ∧
    read_bds_at [0, 0, 4, 9] 0 0 = .panicked ∧
    read_gds_at [0, 0, 4, 9] 0 = .panicked ∧
    read_grib [71, 82, 73, 66, 0, 0, 47, 1, 0, 0, 4, 9] 0 [] true = .panicked := by
  refine ⟨by decide, by decide, by decide, by decide⟩

theorem unpackFrom_length {buf : List Nat} {w : Nat} :
    ∀ n start l, unpackFrom buf w start n = some l → l.length = n := by
  intro n
  induction n with
  | zero =>
    intro start l h
    simp only [unpackFrom, Option.some.injEq] at h
    simp [← h]
  | succ m ih =>
    intro start l h
    simp only [unpackFrom] at h
    split at h
    · cases hm : unpackFrom buf w (start + w) m with
      | none => rw [hm] at h; simp at h
      | some rest =>
        rw [hm] at h
        simp only [Option.map_some', Option.some.injEq] at h
        rw [← h, List.length_cons, ih _ _ hm]
    · simp at h

theorem unpackFrom_getD {buf : List Nat} {w : Nat} :
    ∀ n start l, unpackFrom buf w start n = some l →
      ∀ i, i < n → l.getD i 0 = bitsVal buf (start + i * w) w := by
  intro n
  induction n with
  | zero => intro start l _ i hi; omega
  | succ m ih =>
    intro start l h i hi
    simp only [unpackFrom] at h
    split at h
    · cases hm : unpackFrom buf w (start + w) m with
      | none => rw [hm] at h; simp at h
      | some rest =>
        rw [hm] at h
        simp only [Option.map_some', Option.some.injEq] at h
        rw [← h]
        cases i with
        | zero => simp
        | succ j =>
          rw [List.getD_cons_succ, ih _ _ hm j (by omega)]
          congr 1
          ring
    · simp at h

theorem unpackFrom_exhaust {buf : List Nat} {w : Nat} :
    ∀ n start, 1 ≤ n → 8 * buf.length < start + n * w →
      unpackFrom buf w start n = none := by
  intro n
  induction n with
  | zero => intro start h; omega
  | succ m ih =>
    intro start _ hlt
    simp only [unpackFrom]
    by_cases hc : start + w ≤ 8 * buf.length
    · rw [if_pos hc]
      have hsm : (m + 1) * w = m * w + w := Nat.succ_mul m w
      cases m with
      | zero => omega
      | succ k =>
        rw [ih (start + w) (by omega)
          (by rw [hsm] at hlt; rw [Nat.succ_mul] at hlt ⊢; omega)]
        simp
    · rw [if_neg hc]

theorem getD_map_lt {α β : Type} (f : α → β) :
    ∀ (l : List α) (i : Nat) (d : α) (e : β), i < l.length →
      (l.map f).getD i e = f (l.getD i d)
  | [], i, _, _, h => absurd h (by simp)
  | _ :: _, 0, _, _, _ => rfl
  | a :: l, i + 1, d, e, h => by
    simp only [List.map_cons, List.getD_cons_succ]
    exact getD_map_lt f l i d e (by simpa using h)

theorem read_bds_ok {buffer : List Nat} {n : Nat} {b : BDS} (h : read_bds buffer n = .ok b) :
    b.data.length = n ∧ ∀ i, i < n → b.data.getD i 0 =
      read_f32_ibm (buffer.drop 6) +
        (bitsVal (buffer.drop 11) (i * buffer.getD 10 0) (buffer.getD 10 0) : ℚ) *
          (2 : ℚ) ^ read_i16_be (buffer.drop 4) := by
  simp only [read_bds] at h
  split at h
  · exact absurd h (by simp)
  · split at h
    · exact absurd h (by simp)
    · rename_i raw heq
      simp only [ROut.ok.injEq] at h
      rw [← h]
      dsimp only
      have hlen := unpackFrom_length _ _ _ heq
      constructor
      · rw [List.length_map, hlen]
      · intro i hi
        have hg := unpackFrom_getD _ _ _ heq i hi
        have him : i < raw.length := by omega
        rw [getD_map_lt _ raw i 0 0 him, hg, Nat.zero_add]

theorem read_bds_exhausted {buffer : List Nat} {n : Nat} (h11 : 11 ≤ buffer.length)
    (hex : 8 * (buffer.length - 11) < n * buffer.getD 10 0) :
    read_bds buffer n = .fail .dataDecodeFailed := by
  have hn : 1 ≤ n := by
    rcases Nat.eq_zero_or_pos n with h0 | h1
    · subst h0; simp at hex
    · exact h1
  simp only [read_bds]
  rw [if_neg (by omega)]
  rw [unpackFrom_exhaust n 0 hn
    (by rw [List.length_drop, Nat.zero_add]; exact hex)]

theorem read_bds_at_ok {file : List Nat} {pos n : Nat} {b : BDS} {p : Nat}
    (h : read_bds_at file pos n = .ok (b, p)) : ∃ buffer, read_bds buffer n = .ok b := by
  simp only [read_bds_at] at h
  split at h
  · exact absurd h (by simp)
  · split at h
    · exact absurd h (by simp)
    · rename_i len buffer hbuf
      split at h
      · exact absurd h (by simp)
      · exact absurd h (by simp)
      · rename_i bds hbds
        simp only [ROut.ok.injEq, Prod.mk.injEq] at h
        exact ⟨buffer, by rw [hbds, h.1]⟩

theorem readGdsStep_ok {file : List Nat} {pds : PDS} {pos : Nat}
    {r : Option GDS × Nat × Nat × Nat} (h : readGdsStep file pds pos = .ok r) :
    r.2.1 * r.2.2.1 = gridPoints r.1 ∧ r.1.isSome = pds.has_gds := by
  obtain ⟨gdsOpt, nlat, nlon, pos1⟩ := r
  simp only [readGdsStep] at h
  split at h
  · rename_i hg
    split at h
    · exact absurd h (by simp)
    · exact absurd h (by simp)
    · rename_i gds posg hgds
      split at h
      · rename_i v hv
        simp only [ROut.ok.injEq, Prod.mk.injEq] at h
        obtain ⟨h1, h2, h3, _⟩ := h
        subst h1; subst h2; subst h3
        exact ⟨by simp [gridPoints, hv], by simp [hg]⟩
      · rename_i hv
        simp only [ROut.ok.injEq, Prod.mk.injEq] at h
        obtain ⟨h1, h2, h3, _⟩ := h
        subst h1; subst h2; subst h3
        exact ⟨by simp [gridPoints, hv], by simp [hg]⟩
  · rename_i hg
    simp only [ROut.ok.injEq, Prod.mk.injEq] at h
    obtain ⟨h1, h2, h3, _⟩ := h
    subst h1; subst h2; subst h3
    refine ⟨by simp [gridPoints], ?_⟩
    rw [Option.isSome_none]
    exact (Bool.eq_false_iff.mpr hg).symm

theorem readBmpStep_ok {file : List Nat} {pds : PDS} {r r' : Option GDS × Nat × Nat × Nat}
    (h : readBmpStep file pds r = .ok r') :
    r'.1 = r.1 ∧ r'.2.1 = r.2.1 ∧ r'.2.2.1 = r.2.2.1 := by
  obtain ⟨gdsOpt, nlat, nlon, pos1⟩ := r
  simp only [readBmpStep] at h
  split at h
  · split at h
    · exact absurd h (by simp)
    · exact absurd h (by simp)
    · rename_i bmp pos2 hbmp
      simp only [ROut.ok.injEq] at h
      rw [← h]
      exact ⟨rfl, rfl, rfl⟩
  · simp only [ROut.ok.injEq] at h
    rw [← h]
    exact ⟨rfl, rfl, rfl⟩

theorem readSections_ok {file : List Nat} {pds : PDS} {pos : Nat} {gdsOpt : Option GDS}
    {nlat nlon pos2 : Nat} (h : readSections file pds pos = .ok (gdsOpt, nlat, nlon, pos2)) :
    nlat * nlon = gridPoints gdsOpt ∧ gdsOpt.isSome = pds.has_gds := by
  simp only [readSections] at h
  split at h
  · exact absurd h (by simp)
  · exact absurd h (by simp)
  · rename_i r hr
    obtain ⟨hg1, hg2⟩ := readGdsStep_ok hr
    obtain ⟨e1, e2, e3⟩ := readBmpStep_ok h
    simp only at e1 e2 e3
    rw [← e1] at hg1 hg2
    rw [← e2, ← e3] at hg1
    exact ⟨hg1, hg2⟩

theorem readSections_skip {file : List Nat} {pds : PDS} {pos : Nat}
    (hg : pds.has_gds = false) (hb : pds.has_bmp = false) :
    readSections file pds pos = .ok (none, 0, 0, pos) := by
  simp [readSections, readGdsStep, readBmpStep, hg, hb]

theorem read_grib_ok_shape {file : List Nat} {pos : Nat} {s : List SearchParams} {wb : Bool}
    {res : GribResult} {p : Nat} (h : read_grib file pos s wb = .ok (res, p)) :
    ∃ pds pos1 gdsOpt nlat nlon pos2,
      read_pds_at file (pos + 8) = .ok (pds, pos1) ∧
      readSections file pds pos1 = .ok (gdsOpt, nlat, nlon, pos2) ∧
      ((s.any (matchesCriterion pds) = false ∧ p = pos2 ∧
          res = .Length (read_u24_be [file.getD (pos + 4) 0, file.getD (pos + 5) 0,
            file.getD (pos + 6) 0, file.getD (pos + 7) 0])) ∨
        (s.any (matchesCriterion pds) = true ∧ ∃ g, res = .Grib g ∧ g.pds = pds ∧
          g.gds = gdsOpt ∧
          g.length = read_u24_be [file.getD (pos + 4) 0, file.getD (pos + 5) 0,
            file.getD (pos + 6) 0, file.getD (pos + 7) 0] ∧
          ((wb = false ∧ g.bds = none ∧ p = pos2) ∨
            (wb = true ∧ ∃ b, read_bds_at file pos2 (nlat * nlon) = .ok (b, p) ∧
              g.bds = some b)))) := by
  simp only [read_grib, List.take_succ_cons, List.take_zero, List.drop_succ_cons,
    List.drop_zero, List.getD_cons_zero, List.getD_cons_succ] at h
  split at h
  · exact absurd h (by simp)
  · split at h
    · exact absurd h (by simp)
    · split at h
      · exact absurd h (by simp)
      · exact absurd h (by simp)
      · rename_i pds pos1 hpds
        split at h
        · exact absurd h (by simp)
        · exact absurd h (by simp)
        · rename_i gdsOpt nlat nlon pos2 hsec
          refine ⟨pds, pos1, gdsOpt, nlat, nlon, pos2, hpds, hsec, ?_⟩
          split at h
          · rename_i hmatch
            split at h
            · rename_i hwb
              split at h
              · exact absurd h (by simp)
              · exact absurd h (by simp)
              · rename_i bds pos3 hbds
                simp only [ROut.ok.injEq, Prod.mk.injEq] at h
                obtain ⟨hres, hp⟩ := h
                subst hp
                refine Or.inr ⟨hmatch, _, hres.symm, rfl, rfl, rfl,
                  Or.inr ⟨hwb, bds, hbds, rfl⟩⟩
            · rename_i hwb
              simp only [ROut.ok.injEq, Prod.mk.injEq] at h
              obtain ⟨hres, hp⟩ := h
              subst hp
              exact Or.inr ⟨hmatch, _, hres.symm, rfl, rfl, rfl,
                Or.inl ⟨Bool.eq_false_iff.mpr hwb, rfl, rfl⟩⟩
          · rename_i hmatch
            simp only [ROut.ok.injEq, Prod.mk.injEq] at h
            obtain ⟨hres, hp⟩ := h
            subst hp
            exact Or.inl ⟨Bool.eq_false_iff.mpr hmatch, rfl, hres.symm⟩

/-- C2: a scan whose first four header bytes are not `GRIB` fails with
`WrongHeader`; with the magic present, a version byte other than 1 fails with
`WrongVersion` carrying the observed byte. -/
theorem C2_header_version_errors (file : List Nat) (pos : Nat) (s : List SearchParams)
    (wb : Bool) :
    ([file.getD pos 0, file.getD (pos + 1) 0, file.getD (pos + 2) 0, file.getD (pos + 3) 0] ≠
        [71, 82, 73, 66] →
      read_grib file pos s wb = .fail .wrongHeader) ∧
    ([file.getD pos 0, file.getD (pos + 1) 0, file.getD (pos + 2) 0, file.getD (pos + 3) 0] =
        [71, 82, 73, 66] →
      file.getD (pos + 7) 0 ≠ 1 →
      read_grib file pos s wb = .fail (.wrongVersion (file.getD (pos + 7) 0))) := by
  constructor
  · intro h
    simp only [read_grib, List.take_succ_cons, List.take_zero]
    rw [if_pos h]
  · intro h h7
    simp only [read_grib, List.take_succ_cons, List.take_zero, List.getD_cons_zero,
      List.getD_cons_succ]
    rw [if_neg (not_not_intro h), if_pos h7]

/-- Witness for C2: a wrong magic and a wrong version byte, concretely. -/
theorem C2_witness :
    read_grib [0, 1, 2, 3] 0 [] true = .fail .wrongHeader ∧
    read_grib [71, 82, 73, 66, 0, 0, 9, 7] 0 [] false = .fail (.wrongVersion 7) :=
  ⟨(C2_header_version_errors [0, 1, 2, 3] 0 [] true).1 (by decide),
    (C2_header_version_errors [71, 82, 73, 66, 0, 0, 9, 7] 0 [] false).2 (by decide) (by decide)⟩

/-- C4: the Grid Description section is read exactly when bit `0x80` of the
Product Definition flag byte is set and the Bitmap section exactly when bit
`0x40` is set; with both bits clear the scanner reads neither section — the
section step is the identity on the stream position, independent of the file
contents — and a decoded message's Grid Description field is `some` exactly
when its flag bit was set (so `none` for the both-clear message). -/
theorem C4_flag_sections :
    (∀ p : PDS, p.has_gds =
      (p.flag_specifying_the_presence_or_absence_of_a_gds_or_a_bms).testBit 7) ∧
    (∀ p : PDS, p.has_bmp =
      (p.flag_specifying_the_presence_or_absence_of_a_gds_or_a_bms).testBit 6) ∧
    (∀ (file : List Nat) (p : PDS) (pos : Nat), p.has_gds = false → p.has_bmp = false →
      readSections file p pos = .ok (none, 0, 0, pos)) ∧
    (∀ (file : List Nat) (p : PDS) (pos : Nat) (r : Option GDS × Nat × Nat × Nat),
      readSections file p pos = .ok r → r.1.isSome = p.has_gds) ∧
    (∀ (file : List Nat) (pos : Nat) (s : List SearchParams) (wb : Bool),
      ((gribOf (read_grib file pos s wb)).map fun g => g.gds.isSome) =
        ((gribOf (read_grib file pos s wb)).map fun g => g.pds.has_gds)) := by
  refine ⟨?_, ?_, ?_, ?_, ?_⟩
  · intro p
    by_cases hbit : (p.flag_specifying_the_presence_or_absence_of_a_gds_or_a_bms).testBit 7
    · rw [hbit]
      exact decide_eq_true ((and_128_pos _).mpr hbit)
    · rw [Bool.eq_false_iff.mpr hbit]
      exact decide_eq_false (fun hp => hbit ((and_128_pos _).mp hp))
  · intro p
    by_cases hbit : (p.flag_specifying_the_presence_or_absence_of_a_gds_or_a_bms).testBit 6
    · rw [hbit]
      exact decide_eq_true ((and_64_pos _).mpr hbit)
    · rw [Bool.eq_false_iff.mpr hbit]
      exact decide_eq_false (fun hp => hbit ((and_64_pos _).mp hp))
  · exact fun file p pos hg hb => readSections_skip hg hb
  · intro file p pos r h
    obtain ⟨gdsOpt, nlat, nlon, pos2⟩ := r
    exact (readSections_ok h).2
  · intro file pos s wb
    cases hr : read_grib file pos s wb with
    | fail e => simp [gribOf]
    | panicked => simp [gribOf]
    | ok rp =>
      obtain ⟨gres, p⟩ := rp
      cases gres with
      | Length l => simp [gribOf]
      | Grib g =>
        simp only [gribOf, Option.map_some']
        obtain ⟨pds, pos1, gdsOpt, nlat, nlon, pos2, hpds, hsec, hcase⟩ :=
          read_grib_ok_shape hr
        rcases hcase with ⟨_, _, hres⟩ | ⟨_, g', hres, hgpds, hggds, _, _⟩
        · exact absurd hres (by simp)
        · injection hres with hgg
          subst hgg
          rw [hggds, hgpds, (readSections_ok hsec).2]

/-- Witness for C4: the all-zero-flag PDS of the sample files reads no
section, leaves the position unchanged and yields no grid description. -/
theorem C4_witness :
    pds0.has_gds = false ∧ pds0.has_bmp = false ∧
    readSections [] pds0 5 = .ok (none, 0, 0, 5) ∧
    (none : Option GDS).isSome = pds0.has_gds :=
  ⟨by decide, by decide,
    C4_flag_sections.2.2.1 [] pds0 5 (by decide) (by decide),
    C4_flag_sections.2.2.2.1 [] pds0 5 (none, 0, 0, 5) (by decide)⟩

/-- C1 (amended): a scanned message is selected exactly when some criterion
matches it under the source's truncating comparison — the criterion's `u32`
parameter cast to `u8` (mod 256) equals the message's parameter byte and its
`u32` level cast to `u16` (mod 65536) equals the 16-bit level value; a message
matching no criterion makes the walker advance by its reported length without
touching the result list. -/
theorem C1_selection_truncated :
    (∀ (file : List Nat) (pos : Nat) (s : List SearchParams) (pds : PDS) (pos1 : Nat),
      read_pds_at file (pos + 8) = .ok (pds, pos1) →
      (read_grib file pos s true).isOk = true →
      isGribOutcome (read_grib file pos s true) = s.any (matchesCriterion pds)) ∧
    (∀ (pds : PDS) (sp : SearchParams),
      matchesCriterion pds sp = true ↔
        (pds.indicator_of_parameter_and_units = sp.param % 256 ∧
          pds.level_or_layer_value = sp.level % 65536)) ∧
    (∀ (file : List Nat) (s : List SearchParams) (fuel off : Nat) (acc : List Grib)
      (l p : Nat), off < file.length → read_grib file off s true = .ok (.Length l, p) →
      readLoop file s (fuel + 1) off acc = readLoop file s fuel (off + l) acc) ∧
    (∀ (file : List Nat) (s : List SearchParams) (fuel off : Nat) (acc : List Grib)
      (g : Grib) (p : Nat), off < file.length →
      read_grib file off s true = .ok (.Grib g, p) →
      readLoop file s (fuel + 1) off acc = readLoop file s fuel (off + g.length) (acc ++ [g])) := by
  refine ⟨?_, ?_, ?_, ?_⟩
  · intro file pos s pds pos1 hpds hok
    cases hr : read_grib file pos s true with
    | fail e => exact absurd hok (by simp [ROut.isOk, hr])
    | panicked => exact absurd hok (by simp [ROut.isOk, hr])
    | ok rp =>
      obtain ⟨gres, p⟩ := rp
      obtain ⟨pds', pos1', gdsOpt, nlat, nlon, pos2, hpds', hsec, hcase⟩ :=
        read_grib_ok_shape hr
      rw [hpds] at hpds'
      simp only [ROut.ok.injEq, Prod.mk.injEq] at hpds'
      obtain ⟨hpdseq, _⟩ := hpds'
      subst hpdseq
      rcases hcase with ⟨hm, _, hres⟩ | ⟨hm, g', hres, _⟩
      · subst hres
        simp [isGribOutcome, gribOf, hm]
      · subst hres
        simp [isGribOutcome, gribOf, hm]
  · intro pds sp
    simp [matchesCriterion, Bool.and_eq_true, beq_iff_eq]
  · intro file s fuel off acc l p hoff hr
    simp only [readLoop, if_pos hoff, hr]
  · intro file s fuel off acc g p hoff hr
    simp only [readLoop, if_pos hoff, hr]

/-- Counterexample to C1 as stated: searching `file47` for the single
criterion (param 289, level 700) selects the message whose parameter field is
33 and level 700, although 289 is not equal to 33 — the source compares
`param as u8`, so 289 matches 33 via truncation mod 256. -/
theorem C1_counterexample :
    (match read file47 [{ param := 289, level := 700 }] with
      | some (.ok (l, o)) =>
        (l.map fun g => (g.pds.indicator_of_parameter_and_units, g.pds.level_or_layer_value), o)
      | _ => ([], 0)) = ([(33, 700)], 47) ∧ (289 : Nat) ≠ 33 := by
  refine ⟨by decide, by decide⟩

/-- Witness for C1: the truncated-match equivalence and walker-skip equation
at concrete inputs. -/
theorem C1_witness :
    read_pds_at file47 (0 + 8) = .ok (pds0, 36) ∧
    (read_grib file47 0 [{ param := 289, level := 700 }] true).isOk = true ∧
    isGribOutcome (read_grib file47 0 [{ param := 289, level := 700 }] true) =
      List.any [{ param := 289, level := 700 }] (matchesCriterion pds0) ∧
    read_grib file36 0 [] true = .ok (.Length 100, 36) ∧
    readLoop file36 [] 37 0 [] = readLoop file36 [] 36 (0 + 100) [] :=
  ⟨by decide, by decide,
    C1_selection_truncated.1 file47 0 [{ param := 289, level := 700 }] pds0 36
      (by decide) (by decide),
    by decide,
    C1_selection_truncated.2.2.1 file36 [] 36 0 [] 100 36 (by decide) (by decide)⟩

/-- C3: a successfully decoded Binary Data section holds exactly `n` samples,
where `n` is the requested point count — at scanner level the product of the
rotated-lat/lon point counts, and 0 for an absent or unhandled grid
description — and the `i`-th sample is
`reference_value + raw_i * 2^binary_scale_factor` for the `i`-th bit-packed
unsigned integer of the payload; if the bitstream is exhausted before `n`
values are produced, decoding fails with `DataDecodeFailed`. -/
theorem C3_bds_decode :
    (∀ (buffer : List Nat) (n : Nat), (read_bds buffer n).isOk = true →
      ((read_bds buffer n).getD bdsDefault).data.length = n ∧
      ∀ i, i < n → ((read_bds buffer n).getD bdsDefault).data.getD i 0 =
        read_f32_ibm (buffer.drop 6) +
          (bitsVal (buffer.drop 11) (i * buffer.getD 10 0) (buffer.getD 10 0) : ℚ) *
            (2 : ℚ) ^ read_i16_be (buffer.drop 4)) ∧
    (∀ (buffer : List Nat) (n : Nat), 11 ≤ buffer.length →
      8 * (buffer.length - 11) < n * buffer.getD 10 0 →
      read_bds buffer n = .fail .dataDecodeFailed) ∧
    (∀ (file : List Nat) (pos : Nat) (s : List SearchParams) (g : Grib) (p : Nat),
      read_grib file pos s true = .ok (.Grib g, p) →
      ∀ b, g.bds = some b → b.data.length = gridPoints g.gds) := by
  refine ⟨?_, ?_, ?_⟩
  · intro buffer n hok
    cases hb : read_bds buffer n with
    | ok b =>
      have hh := read_bds_ok hb
      simpa [ROut.getD] using hh
    | fail e => exact absurd hok (by simp [ROut.isOk, hb])
    | panicked => exact absurd hok (by simp [ROut.isOk, hb])
  · exact fun buffer n h11 hex => read_bds_exhausted h11 hex
  · intro file pos s g p hr b hb
    obtain ⟨pds, pos1, gdsOpt, nlat, nlon, pos2, hpds, hsec, hcase⟩ := read_grib_ok_shape hr
    rcases hcase with ⟨_, _, hres⟩ | ⟨_, g', hres, hgpds, hggds, _, hbdscase⟩
    · exact absurd hres (by simp)
    · injection hres with hgg
      subst hgg
      rcases hbdscase with ⟨_, hnone, _⟩ | ⟨_, bb, hbds_at, hgbds⟩
      · rw [hnone] at hb
        exact absurd hb (by simp)
      · rw [hgbds] at hb
        simp only [Option.some.injEq] at hb
        subst hb
        obtain ⟨buffer, hbuf⟩ := read_bds_at_ok hbds_at
        have hlen := (read_bds_ok hbuf).1
        rw [hggds, ← (readSections_ok hsec).1]
        exact hlen

/-- Witness for C3: a 13-byte BDS with an 8-bit payload of two values decodes
to exactly two samples; a 12-byte BDS asked for two 8-bit values is exhausted
and fails with `DataDecodeFailed`. -/
theorem C3_witness :
    ((read_bds [0, 0, 13, 0, 0, 0, 0, 0, 0, 0, 8, 5, 7] 2).isOk = true ∧
      ((read_bds [0, 0, 13, 0, 0, 0, 0, 0, 0, 0, 8, 5, 7] 2).getD bdsDefault).data.length = 2) ∧
    (11 ≤ ([0, 0, 12, 0, 0, 0, 0, 0, 0, 0, 8, 5] : List Nat).length ∧
      read_bds [0, 0, 12, 0, 0, 0, 0, 0, 0, 0, 8, 5] 2 = .fail .dataDecodeFailed) :=
  ⟨⟨by decide, (C3_bds_decode.1 [0, 0, 13, 0, 0, 0, 0, 0, 0, 0, 8, 5, 7] 2 (by decide)).1⟩,
    ⟨by decide, C3_bds_decode.2.1 [0, 0, 12, 0, 0, 0, 0, 0, 0, 0, 8, 5] 2 (by decide) (by decide)⟩⟩

/-- C5 (amended): the file walker starts at offset 0 and advances by each
scanned message's reported length; a scan that completes without error stops
at the first cumulative offset at or beyond the file's total byte length.
The final offset can strictly exceed the file length (see the
counterexample), so the sum of reported lengths is at least — not exactly —
the total file length. -/
theorem C5_walker_offset :
    (∀ (file : List Nat) (s : List SearchParams) (fuel off : Nat) (acc res : List Grib)
      (o : Nat), readLoop file s fuel off acc = some (.ok (res, o)) → file.length ≤ o) ∧
    (∀ (file : List Nat) (s : List SearchParams) (res : List Grib) (o : Nat),
      read file s = some (.ok (res, o)) → file.length ≤ o) := by
  have main : ∀ (file : List Nat) (s : List SearchParams) (fuel off : Nat)
      (acc res : List Grib) (o : Nat),
      readLoop file s fuel off acc = some (.ok (res, o)) → file.length ≤ o := by
    intro file s fuel
    induction fuel with
    | zero => intro off acc res o h; simp [readLoop] at h
    | succ m ih =>
      intro off acc res o h
      simp only [readLoop] at h
      split at h
      · split at h
        · exact absurd h (by simp)
        · exact absurd h (by simp)
        · exact ih _ _ _ _ h
        · exact ih _ _ _ _ h
      · rename_i hoff
        simp only [Option.some.injEq, ROut.ok.injEq, Prod.mk.injEq] at h
        omega
  exact ⟨main, fun file s res o h => main file s (file.length + 1) 0 [] res o h⟩

/-- Counterexample to C5 as stated: `file36` is 36 bytes long but its single
message reports length 100; the walker completes without error and stops at
cumulative offset 100, overshooting end-of-file, so the sum of reported
lengths (100) differs from the file length (36). -/
theorem C5_counterexample :
    read file36 [] = some (.ok ([], 100)) ∧ file36.length = 36 ∧ (100 : Nat) ≠ 36 := by
  refine ⟨by decide, by decide, by decide⟩

/-- Witness for C5: the completed scan of `file36` ends at offset 100, which
is at or beyond the 36-byte file length. -/
theorem C5_witness :
    read file36 [] = some (.ok ([], 100)) ∧ file36.length ≤ 100 :=
  ⟨by decide, C5_walker_offset.2 file36 [] [] 100 (by decide)⟩

theorem readExact_some {file : List Nat} {pos n : Nat} {bytes : List Nat}
    (h : readExact file pos n = some bytes) :
    pos + n ≤ file.length ∧ bytes = (file.drop pos).take n := by
  simp only [readExact] at h
  split at h
  · rename_i hle
    simp only [Option.some.injEq] at h
    exact ⟨hle, h.symm⟩
  · exact absurd h (by simp)

theorem readBinaryLoop_ranges {file : List Nat} {s : List SearchParams} :
    ∀ (fuel off : Nat) (acc : List Nat) (racc : List (Nat × Nat)),
      acc = (racc.map (sliceAt file)).flatten →
      (∀ r ∈ racc, r.1 + r.2 ≤ file.length) →
      ∀ (bs : List Nat) (o : Nat),
        readBinaryLoop file s fuel off acc = some (.ok (bs, o)) →
        ∃ rs, matchedRangesLoop file s fuel off racc = some (.ok (rs, o)) ∧
          bs = (rs.map (sliceAt file)).flatten ∧ ∀ r ∈ rs, r.1 + r.2 ≤ file.length := by
  intro fuel
  induction fuel with
  | zero => intro off acc racc _ _ bs o h; simp [readBinaryLoop] at h
  | succ m ih =>
    intro off acc racc hacc hbound bs o h
    simp only [readBinaryLoop] at h
    split at h
    · rename_i hoff
      split at h
      · exact absurd h (by simp)
      · exact absurd h (by simp)
      · rename_i g p hg
        split at h
        · exact absurd h (by simp)
        · rename_i bytes hre
          obtain ⟨hle, hbytes⟩ := readExact_some hre
          obtain ⟨rs, hmr, hbs, hrb⟩ := ih (off + g.length) (acc ++ bytes)
            (racc ++ [(off, g.length)])
            (by rw [hacc, hbytes]; simp [sliceAt])
            (by
              intro r hr
              rcases List.mem_append.mp hr with h1 | h2
              · exact hbound r h1
              · simp only [List.mem_singleton] at h2
                rw [h2]
                exact hle)
            bs o h
          refine ⟨rs, ?_, hbs, hrb⟩
          simp only [matchedRangesLoop]
          rw [if_pos hoff]
          simp only [hg]
          rw [if_pos hle]
          exact hmr
      · rename_i l p hg
        obtain ⟨rs, hmr, hbs, hrb⟩ := ih (off + l) acc racc hacc hbound bs o h
        refine ⟨rs, ?_, hbs, hrb⟩
        simp only [matchedRangesLoop]
        rw [if_pos hoff]
        simp only [hg]
        exact hmr
    · rename_i hoff
      simp only [Option.some.injEq, ROut.ok.injEq, Prod.mk.injEq] at h
      obtain ⟨hacc', ho⟩ := h
      refine ⟨racc, ?_, ?_, hbound⟩
      · simp only [matchedRangesLoop]
        rw [if_neg hoff, ho]
      · rw [← hacc', hacc]

/-- C6: a completed raw-bytes scan returns exactly the concatenation, in file
order, of the raw byte ranges of the matching messages — each range starting
at the message's start offset and extending for its reported length, all
lying inside the file — so the output length is the sum of the matched
messages' reported lengths; for a single matching message it equals that
message's 24-bit reported length field. -/
theorem C6_raw_extraction (file : List Nat) (s : List SearchParams) (bs : List Nat) (o : Nat)
    (h : read_binary file s = some (.ok (bs, o))) :
    ∃ rs, matchedRanges file s = some (.ok (rs, o)) ∧
      bs = (rs.map (sliceAt file)).flatten ∧
      (∀ r ∈ rs, r.1 + r.2 ≤ file.length) ∧
      bs.length = (rs.map (fun r => r.2)).sum := by
  obtain ⟨rs, hmr, hbs, hrb⟩ :=
    readBinaryLoop_ranges (file.length + 1) 0 [] [] (by simp) (by simp) bs o h
  refine ⟨rs, hmr, hbs, hrb, ?_⟩
  have hsl : ∀ r ∈ rs, (sliceAt file r).length = r.2 := by
    intro r hr
    have hb := hrb r hr
    simp only [sliceAt, List.length_take, List.length_drop]
    omega
  rw [hbs, List.length_flatten, List.map_map]
  congr 1
  exact List.map_congr_left fun r hr => by simp [hsl r hr]

/-- Witness for C6: searching `file36m` (a single 36-byte message whose PDS
matches parameter 33, level 700) in raw-bytes mode returns the whole file,
whose length equals the message's reported length field 36. -/
theorem C6_witness :
    read_binary file36m [{ param := 33, level := 700 }] = some (.ok (file36m, 36)) ∧
    ∃ rs, matchedRanges file36m [{ param := 33, level := 700 }] = some (.ok (rs, 36)) ∧
      file36m = (rs.map (sliceAt file36m)).flatten ∧
      (∀ r ∈ rs, r.1 + r.2 ≤ file36m.length) ∧
      file36m.length = (rs.map (fun r => r.2)).sum :=
  ⟨by decide,
    C6_raw_extraction file36m [{ param := 33, level := 700 }] file36m 36 (by decide)⟩

end Grib1
